import Mathlib

/-!
Verification of the clone-on-consume pointer `MuCow` (src/src/lib.rs).

The Rust type is

  pub enum MuCow<'a, B: ?Sized + 'a> where B: ToOwned {
      Borrowed(&'a mut B),
      Owned(<B as ToOwned>::Owned),
  }

Shallow embedding.  A `MuCow B O` is a sum of a borrowed view of type `B`
and an owned value of type `O` (`<B as ToOwned>::Owned`).  The exclusive
mutable reference held by `Borrowed` is modelled by carrying the referent
itself: exclusivity means that while the `MuCow` is alive nobody else can
observe the referent, and when the borrow ends the external data is
exactly the payload, so in-place mutation through the reference is
updating the payload.

The trait machinery is modelled by a record `ToOwnedInst B O` bundling
`ToOwned::to_owned : B -> O`, `Borrow::borrow : O -> B` (the borrowed
view of an owned value, used by `Deref` for the `Owned` arm) and the
write-back half of `BorrowMut` (`borrow_mut_set`): a `&mut B` view of an
owned `O` is a lens `(borrow, borrow_mut_set)`, and mutating through
`deref_mut` with a mutation `f : B -> B` applies `f` through that lens.

Clone counting: every operation that could call `to_owned` is translated
as a pair `(result, n)` where `n` counts the `to_owned` calls performed
on the taken branch of the Rust source, so "no clone occurs" is the
statement that the second component is `0`.
-/

namespace MuCowSpec

/-- The trait bundle for a borrowable type `B` with owned representation
`O`: `to_owned` is `ToOwned::to_owned`, `borrow` is `Borrow::<B>::borrow`
on `O`, and `borrow_mut_set` is the write-back direction of
`BorrowMut::<B>::borrow_mut` on `O` (the lens update). -/
structure ToOwnedInst (B O : Type) where
  to_owned : B → O
  borrow : O → B
  borrow_mut_set : O → B → O

/-- The Rust trait contracts the standard library documents for
`ToOwned` / `Borrow` / `BorrowMut`: the borrowed view of a clone is the
original, and reading back a written view yields what was written. -/
structure ToOwnedInst.Lawful {B O : Type} (I : ToOwnedInst B O) : Prop where
  borrow_to_owned : ∀ b : B, I.borrow (I.to_owned b) = b
  borrow_set : ∀ (o : O) (b : B), I.borrow (I.borrow_mut_set o b) = b

/-- `enum MuCow<'a, B>`: `Borrowed(&'a mut B)` or
`Owned(<B as ToOwned>::Owned)`. -/
inductive MuCow (B O : Type) where
  | Borrowed (b : B)
  | Owned (o : O)
  deriving DecidableEq, Repr

/-- `std::borrow::Cow`, the conversion target of `impl Into<Cow> for
MuCow`: `Cow::Borrowed(&'a B)` or `Cow::Owned(<B as ToOwned>::Owned)`. -/
inductive Cow (B O : Type) where
  | Borrowed (b : B)
  | Owned (o : O)
  deriving DecidableEq, Repr

namespace MuCow

variable {B C O P : Type}

/-- Variant tag observer: true exactly on the `Owned` variant. -/
def isOwned : MuCow B O → Bool
  | .Borrowed _ => false
  | .Owned _ => true

/-- Variant tag observer: true exactly on the `Borrowed` variant. -/
def isBorrowed : MuCow B O → Bool
  | .Borrowed _ => true
  | .Owned _ => false

/-- `impl Deref for MuCow`, `fn deref(&self) -> &B`, with clone count:
`Borrowed(ref borrowed) => borrowed` and
`Owned(ref owned) => owned.borrow()`; neither arm calls `to_owned`. -/
def derefc (I : ToOwnedInst B O) : MuCow B O → B × Nat
  | .Borrowed b => (b, 0)
  | .Owned o => (I.borrow o, 0)

/-- The value returned by `deref` (the immutable view of the active
data). -/
def deref (I : ToOwnedInst B O) (x : MuCow B O) : B :=
  (derefc I x).1

/-- `MuCow::into_owned(self) -> <B as ToOwned>::Owned` with clone count:
`Borrowed(borrowed) => borrowed.to_owned()` (one clone) and
`Owned(owned) => owned` (no clone). -/
def into_owned (I : ToOwnedInst B O) : MuCow B O → O × Nat
  | .Borrowed b => (I.to_owned b, 1)
  | .Owned o => (o, 0)

/-- `impl Clone for MuCow`, `fn clone(&self) -> MuCow`:
`Owned((&**self).to_owned())` — dereference, then clone the view, always
producing an `Owned` value with exactly one `to_owned` call. -/
def clone (I : ToOwnedInst B O) (x : MuCow B O) : MuCow B O × Nat :=
  (.Owned (I.to_owned (deref I x)), 1)

/-- `impl DerefMut for MuCow`, modelled as applying a mutation
`f : B → B` through the returned `&mut B`:
`Borrowed(ref mut borrowed) => borrowed` mutates the referent in place,
`Owned(ref mut owned) => owned.borrow_mut()` mutates through the lens on
the owned value.  Neither arm calls `to_owned`. -/
def derefMutApply (I : ToOwnedInst B O) (f : B → B) :
    MuCow B O → MuCow B O × Nat
  | .Borrowed b => (.Borrowed (f b), 0)
  | .Owned o => (.Owned (I.borrow_mut_set o (f (I.borrow o))), 0)

/-- `impl Into<Cow> for MuCow` with clone count:
`Borrowed(borrowed) => Cow::Borrowed(borrowed)` and
`Owned(owned) => Cow::Owned(owned)`; neither arm calls `to_owned`. -/
def intoCow : MuCow B O → Cow B O × Nat
  | .Borrowed b => (Cow.Borrowed b, 0)
  | .Owned o => (Cow.Owned o, 0)

/-- `impl PartialEq<MuCow<C>> for MuCow<B>` where `B: PartialEq<C>`:
`PartialEq::eq(&**self, &**other)` — cross-type equality of the two
dereferenced views, given the underlying comparison `eqBC`. -/
def eq (eqBC : B → C → Bool) (I : ToOwnedInst B O) (J : ToOwnedInst C P)
    (x : MuCow B O) (y : MuCow C P) : Bool :=
  eqBC (deref I x) (deref J y)

/-- `impl Ord for MuCow` where `B: Ord`:
`Ord::cmp(&**self, &**other)` — comparison of the dereferenced views. -/
def cmp (cmpB : B → B → Ordering) (I : ToOwnedInst B O)
    (x y : MuCow B O) : Ordering :=
  cmpB (deref I x) (deref I y)

/-- `impl Hash for MuCow` where `B: Hash`:
`Hash::hash(&**self, state)` — feeds the dereferenced view to the hasher
state, given `B`'s stateful hash function `hashB`. -/
def hashWith {σ : Type} (hashB : B → σ → σ) (I : ToOwnedInst B O)
    (x : MuCow B O) (s : σ) : σ :=
  hashB (deref I x) s

/-- `impl fmt::Debug for MuCow` where `B: Debug, B::Owned: Debug`:
`Borrowed(ref b)` is formatted with `B`'s Debug formatter `fB`,
`Owned(ref o)` with the owned representation's own formatter `fO`. -/
def fmtDebug (fB : B → String) (fO : O → String) : MuCow B O → String
  | .Borrowed b => fB b
  | .Owned o => fO o

/-- `impl fmt::Display for MuCow` where `B: Display, B::Owned: Display`:
`Borrowed(ref b)` is formatted with `B`'s Display formatter `fB`,
`Owned(ref o)` with the owned representation's own formatter `fO`. -/
def fmtDisplay (fB : B → String) (fO : O → String) : MuCow B O → String
  | .Borrowed b => fB b
  | .Owned o => fO o

/-- `impl Default for MuCow` where `B::Owned: Default`:
`Owned(<B as ToOwned>::Owned::default())`, given the owned
representation's default value `d`. -/
def mkDefault (d : O) : MuCow B O :=
  .Owned d

/-- `impl AsRef<B> for MuCow`, `fn as_ref(&self) -> &B { self }`
(deref coercion applies Deref). -/
def as_ref (I : ToOwnedInst B O) (x : MuCow B O) : B :=
  deref I x

/-- `impl Borrow<B> for MuCow`, `fn borrow(&self) -> &B { &**self }`
(explicit Deref). -/
def borrow (I : ToOwnedInst B O) (x : MuCow B O) : B :=
  deref I x

/-- `impl BorrowMut<B> for MuCow`,
`fn borrow_mut(&mut self) -> &mut B { &mut **self }` (explicit
DerefMut), modelled as applying a mutation through the returned view. -/
def borrowMutApply (I : ToOwnedInst B O) (f : B → B) (x : MuCow B O) :
    MuCow B O × Nat :=
  derefMutApply I f x

end MuCow

/-- Concrete witness instance: `B = List Nat` with itself as owned
representation (`to_owned` is the identity clone, the borrowed view of
an owned list is the list itself, writing through the mutable view
replaces the list). -/
def listInst : ToOwnedInst (List Nat) (List Nat) :=
  ⟨fun b => b, fun o => o, fun _ b => b⟩

theorem listInst_lawful : listInst.Lawful :=
  ⟨fun _ => rfl, fun _ _ => rfl⟩

/-- Concrete witness instance over `Bool`. -/
def boolInst : ToOwnedInst Bool Bool :=
  ⟨fun b => b, fun o => o, fun _ b => b⟩

theorem boolInst_lawful : boolInst.Lawful :=
  ⟨fun _ => rfl, fun _ _ => rfl⟩

variable {B C O P : Type}

/-- Claim C1: if `x` is `Borrowed d`, `into_owned x` clones `d` exactly
once and returns the clone, which is structurally equal to `d` (its
borrowed view is `d`); if `x` is `Owned v`, `into_owned x` returns `v`
itself with zero clones. -/
theorem into_owned_spec (I : ToOwnedInst B O) (hI : I.Lawful)
    (d : B) (v : O) :
    MuCow.into_owned I (.Borrowed d) = (I.to_owned d, 1) ∧
    I.borrow (MuCow.into_owned I (.Borrowed d)).1 = d ∧
    MuCow.into_owned I (.Owned v) = (v, 0) :=
  ⟨rfl, hI.borrow_to_owned d, rfl⟩

theorem into_owned_spec_witness :
    MuCowSpec.listInst.Lawful ∧
    (MuCow.into_owned MuCowSpec.listInst (.Borrowed [1, 2, 3]) =
        (MuCowSpec.listInst.to_owned [1, 2, 3], 1) ∧
      MuCowSpec.listInst.borrow
          (MuCow.into_owned MuCowSpec.listInst (.Borrowed [1, 2, 3])).1 =
        [1, 2, 3] ∧
      MuCow.into_owned MuCowSpec.listInst (.Owned [9]) = ([9], 0)) :=
  ⟨listInst_lawful, into_owned_spec listInst listInst_lawful [1, 2, 3] [9]⟩

/-- Claim C2: cloning a pointer in either state always yields an `Owned`
pointer holding one fresh clone of the data currently viewed through the
source pointer, with exactly one clone performed. -/
theorem clone_always_owned (I : ToOwnedInst B O) (x : MuCow B O) :
    MuCow.clone I x = (.Owned (I.to_owned (MuCow.deref I x)), 1) ∧
    (MuCow.clone I x).1.isOwned = true :=
  ⟨rfl, by cases x <;> rfl⟩

/-- Claim C3: `deref_mut` performs no clone and no state change: a
`Borrowed` pointer stays `Borrowed` and the mutation goes directly to
the referenced data; an `Owned` pointer stays `Owned` and the mutation
goes through the mutable view of the held value (the view afterwards is
`f` of the view before).  Mutable access never promotes `Borrowed` to
`Owned`. -/
theorem deref_mut_spec (I : ToOwnedInst B O) (hI : I.Lawful)
    (f : B → B) (b : B) (o : O) :
    MuCow.derefMutApply I f (.Borrowed b) = (.Borrowed (f b), 0) ∧
    (MuCow.derefMutApply I f (.Borrowed b)).1.isBorrowed = true ∧
    MuCow.derefMutApply I f (.Owned o) =
      (.Owned (I.borrow_mut_set o (f (I.borrow o))), 0) ∧
    (MuCow.derefMutApply I f (.Owned o)).1.isOwned = true ∧
    MuCow.deref I (MuCow.derefMutApply I f (.Owned o)).1 =
      f (I.borrow o) :=
  ⟨rfl, rfl, rfl, rfl, hI.borrow_set o (f (I.borrow o))⟩

theorem deref_mut_spec_witness :
    MuCowSpec.listInst.Lawful ∧
    (MuCow.derefMutApply MuCowSpec.listInst (fun l => l ++ [4])
        (.Borrowed [1, 2, 3]) = (.Borrowed [1, 2, 3, 4], 0) ∧
      (MuCow.derefMutApply MuCowSpec.listInst (fun l => l ++ [4])
          (.Borrowed [1, 2, 3])).1.isBorrowed = true ∧
      MuCow.derefMutApply MuCowSpec.listInst (fun l => l ++ [4])
          (.Owned [7]) =
        (.Owned (MuCowSpec.listInst.borrow_mut_set [7]
            ([7] ++ [4])), 0) ∧
      (MuCow.derefMutApply MuCowSpec.listInst (fun l => l ++ [4])
          (.Owned [7])).1.isOwned = true ∧
      MuCow.deref MuCowSpec.listInst
          (MuCow.derefMutApply MuCowSpec.listInst (fun l => l ++ [4])
            (.Owned [7])).1 = [7] ++ [4]) :=
  ⟨listInst_lawful,
    deref_mut_spec listInst listInst_lawful (fun l => l ++ [4])
      [1, 2, 3] [7]⟩

/-- Claim C4: `deref` returns the active data without cloning and with
no side effect, in both states: `Borrowed b` yields `b` and `Owned o`
yields the borrowed view of `o`, always with zero clones; the operation
is total. -/
theorem deref_spec (I : ToOwnedInst B O) (b : B) (o : O) :
    MuCow.derefc I (.Borrowed b) = (b, 0) ∧
    MuCow.derefc I (.Owned o) = (I.borrow o, 0) ∧
    ∀ x : MuCow B O, MuCow.derefc I x = (MuCow.deref I x, 0) :=
  ⟨rfl, rfl, fun x => by cases x <;> rfl⟩

/-- Claim C5: round-trip — for a pointer in either state, consuming a
clone of it yields a value structurally equal (equal borrowed views) to
consuming the pointer itself. -/
theorem into_owned_clone_roundtrip (I : ToOwnedInst B O) (hI : I.Lawful)
    (x : MuCow B O) :
    I.borrow (MuCow.into_owned I (MuCow.clone I x).1).1 =
      I.borrow (MuCow.into_owned I x).1 :=
  by cases x <;> simp [MuCow.clone, MuCow.into_owned, MuCow.deref,
      MuCow.derefc, hI.borrow_to_owned]

theorem into_owned_clone_roundtrip_witness :
    MuCowSpec.listInst.Lawful ∧
    MuCowSpec.listInst.borrow
        (MuCow.into_owned MuCowSpec.listInst
          (MuCow.clone MuCowSpec.listInst
            (.Owned [5, 6] : MuCow (List Nat) (List Nat))).1).1 =
      MuCowSpec.listInst.borrow
        (MuCow.into_owned MuCowSpec.listInst
          (.Owned [5, 6] : MuCow (List Nat) (List Nat))).1 :=
  ⟨listInst_lawful,
    into_owned_clone_roundtrip listInst listInst_lawful (.Owned [5, 6])⟩

/-- Claim C6: conversion into `Cow` maps `Borrowed b` to `Cow.Borrowed`
over the same data `b` and `Owned o` to `Cow.Owned` over the same held
value `o`, performing zero clones in either case. -/
theorem into_cow_spec (b : B) (o : O) :
    MuCow.intoCow (O := O) (.Borrowed b) = (Cow.Borrowed b, 0) ∧
    MuCow.intoCow (B := B) (.Owned o) = (Cow.Owned o, 0) :=
  ⟨rfl, rfl⟩

/-- Claim C7: equality, ordering and hashing are computed on the
dereferenced views, independently of the variant tag: cross-type
equality over `B` and `C` is the underlying comparison of the two views;
equality is reflexive and symmetric when the underlying comparison is; a
`Borrowed` and an `Owned` pointer wrapping structurally equal data
compare equal and hash equal; and ordering is the underlying comparison
of the views. -/
theorem eq_ord_hash_spec {σ : Type} (eqBC : B → C → Bool)
    (eqB : B → B → Bool) (cmpB : B → B → Ordering) (hashB : B → σ → σ)
    (I : ToOwnedInst B O) (J : ToOwnedInst C P)
    (href : ∀ a : B, eqB a a = true)
    (hsym : ∀ a b : B, eqB a b = eqB b a) :
    (∀ (x : MuCow B O) (y : MuCow C P),
      MuCow.eq eqBC I J x y = eqBC (MuCow.deref I x) (MuCow.deref J y)) ∧
    (∀ x : MuCow B O, MuCow.eq eqB I I x x = true) ∧
    (∀ x y : MuCow B O, MuCow.eq eqB I I x y = MuCow.eq eqB I I y x) ∧
    (∀ (b : B) (o : O), I.borrow o = b →
      MuCow.eq eqB I I (.Borrowed b) (.Owned o) = true ∧
      ∀ s : σ, MuCow.hashWith hashB I (.Borrowed b) s =
        MuCow.hashWith hashB I (.Owned o) s) ∧
    (∀ x y : MuCow B O,
      MuCow.cmp cmpB I x y = cmpB (MuCow.deref I x) (MuCow.deref I y)) :=
  ⟨fun _ _ => rfl,
    fun x => href (MuCow.deref I x),
    fun x y => hsym (MuCow.deref I x) (MuCow.deref I y),
    fun b o hbo =>
      ⟨by simp [MuCow.eq, MuCow.deref, MuCow.derefc, hbo, href],
        fun s => by simp [MuCow.hashWith, MuCow.deref, MuCow.derefc, hbo]⟩,
    fun _ _ => rfl⟩

theorem eq_ord_hash_spec_witness :
    (∀ a : Bool, (a == a) = true) ∧
    (∀ a b : Bool, (a == b) = (b == a)) ∧
    ((∀ (x : MuCow Bool Bool) (y : MuCow Bool Bool),
      MuCow.eq (fun a b => a == b) MuCowSpec.boolInst MuCowSpec.boolInst
          x y =
        ((MuCow.deref MuCowSpec.boolInst x) ==
          (MuCow.deref MuCowSpec.boolInst y))) ∧
    (∀ x : MuCow Bool Bool,
      MuCow.eq (fun a b => a == b) MuCowSpec.boolInst MuCowSpec.boolInst
        x x = true) ∧
    (∀ x y : MuCow Bool Bool,
      MuCow.eq (fun a b => a == b) MuCowSpec.boolInst MuCowSpec.boolInst
          x y =
        MuCow.eq (fun a b => a == b) MuCowSpec.boolInst
          MuCowSpec.boolInst y x) ∧
    (∀ (b : Bool) (o : Bool), MuCowSpec.boolInst.borrow o = b →
      MuCow.eq (fun a b => a == b) MuCowSpec.boolInst MuCowSpec.boolInst
        (.Borrowed b) (.Owned o) = true ∧
      ∀ s : Nat,
        MuCow.hashWith (fun b n => n + cond b 1 0) MuCowSpec.boolInst
            (.Borrowed b) s =
          MuCow.hashWith (fun b n => n + cond b 1 0) MuCowSpec.boolInst
            (.Owned o) s) ∧
    (∀ x y : MuCow Bool Bool,
      MuCow.cmp compare MuCowSpec.boolInst x y =
        compare (MuCow.deref MuCowSpec.boolInst x)
          (MuCow.deref MuCowSpec.boolInst y))) :=
  ⟨by decide, by decide,
    eq_ord_hash_spec (fun a b => a == b) (fun a b => a == b) compare
      (fun b n => n + cond b 1 0) boolInst boolInst (by decide)
      (by decide)⟩

/-- Claim C8: Debug and Display format the dereferenced view: a
`Borrowed` pointer formats with `B`'s formatter applied to the
referenced data, while an `Owned` pointer formats with the owned
representation's own formatter applied to the held value (which may be a
different formatter). -/
theorem fmt_spec (fB : B → String) (fO : O → String) (b : B) (o : O) :
    MuCow.fmtDebug fB fO (.Borrowed b) = fB b ∧
    MuCow.fmtDebug fB fO (.Owned o) = fO o ∧
    MuCow.fmtDisplay fB fO (.Borrowed b) = fB b ∧
    MuCow.fmtDisplay fB fO (.Owned o) = fO o :=
  ⟨rfl, rfl, rfl, rfl⟩

/-- Claim C9: default construction, given the owned representation's
default value `d`, produces a pointer in the `Owned` state holding
exactly `d`. -/
theorem default_spec (d : O) :
    (MuCow.mkDefault d : MuCow B O) = .Owned d ∧
    (MuCow.mkDefault d : MuCow B O).isOwned = true :=
  ⟨rfl, rfl⟩

/-- Claim C10: the reference-conversion accessors agree with
dereferencing: `as_ref` and `borrow` return the same immutable view as
`deref`, and `borrow_mut` gives the same mutable view as `deref_mut`
(any mutation applied through it has the same effect). -/
theorem accessors_agree (I : ToOwnedInst B O) (f : B → B)
    (x : MuCow B O) :
    MuCow.as_ref I x = MuCow.deref I x ∧
    MuCow.borrow I x = MuCow.deref I x ∧
    MuCow.borrowMutApply I f x = MuCow.derefMutApply I f x :=
  ⟨rfl, rfl, rfl⟩

end MuCowSpec
